import Mathlib

/-!
Shallow embedding of the PRISM blockchain indexer
(`backend/src/indexer/indexer.js`): the projected off-chain store, the
MongoDB-style primitives the handlers use (`findOneAndUpdate` with and
without `upsert`, `updateMany`, `deleteMany`, modelled on lists of
documents), the ten contract-event handlers with their per-handler
try/catch failure boundaries, and the WebSocket connection manager's
retry behaviour.
-/

namespace Prism

/-! ## Data model: one structure per projected collection -/

structure RegistrationRequest where
  requestId : Nat
  hospitalName : String
  requesterAddress : String
  status : String
deriving DecidableEq, Repr

structure Hospital where
  hospitalId : Nat
  name : String
  adminAddress : String
  isVerified : Bool
  status : String
deriving DecidableEq, Repr

structure User where
  address : String
  name : String
  role : String
  professionalStatus : String
  isVerified : Bool
  hospitalId : Option Nat
  requestedHospitalId : Option Nat
  publicKey : Option String
deriving DecidableEq, Repr

structure MedicalRecord where
  recordId : Nat
  owner : String
  title : String
  ipfsHash : String
  category : String
  isVerified : Bool
  uploadedBy : String
  timestamp : Nat
deriving DecidableEq, Repr

structure AccessRequest where
  requestId : Nat
  recordIds : List Nat
  professionalAddress : String
  patientAddress : String
  status : String
deriving DecidableEq, Repr

structure AccessGrant where
  recordId : Nat
  patientAddress : String
  professionalAddress : String
  expirationTimestamp : Nat
  rewrappedKey : String
  createdAt : Nat
deriving DecidableEq, Repr

structure Store where
  registrationRequests : List RegistrationRequest
  hospitals : List Hospital
  users : List User
  records : List MedicalRecord
  accessRequests : List AccessRequest
  accessGrants : List AccessGrant
deriving DecidableEq, Repr

def emptyStore : Store := ⟨[], [], [], [], [], []⟩

/-! ## Document-store primitives

`findOneAndUpdate(filter, update)` updates the first matching document
(`updateFirst`); with `upsert: true` it inserts when nothing matches
(`upsertBy`, where `f` is the update applied on a match and `d` the
document inserted on a miss).  `updateMany` maps the update over every
match and reports `modifiedCount`, the number of documents the update
actually changed.  `deleteMany` is `List.filter` on the negated filter. -/

variable {α : Type _}

def updateFirst (p : α → Bool) (f : α → α) : List α → List α
  | [] => []
  | x :: xs => if p x then f x :: xs else x :: updateFirst p f xs

def upsertBy (p : α → Bool) (f : α → α) (d : α) (l : List α) : List α :=
  if l.any p then updateFirst p f l else l ++ [d]

def updateManyCount [DecidableEq α] (p : α → Bool) (f : α → α) (l : List α) :
    List α × Nat :=
  (l.map fun x => if p x then f x else x,
   (l.filter fun x => p x && decide (f x ≠ x)).length)

/-- JS toLowerCase as used on hex addresses
(character-wise lower-casing). -/
def lower (s : String) : String := ⟨s.data.map Char.toLower⟩

/-! ## Events, environment, logging, fault injection -/

inductive Event where
  | registrationRequested (requestId : Nat) (hospitalName requesterAddress tx : String)
  | hospitalVerified (hospitalId : Nat) (adminAddress tx : String)
  | hospitalRevoked (hospitalId : Nat) (tx : String)
  | roleAssigned (userAddress : String) (role hospitalId : Nat) (tx : String)
  | roleRevoked (userAddress tx : String)
  | publicKeySaved (userAddress tx : String)
  | recordAdded (recordId : Nat) (owner title ipfsHash category : String)
      (isVerified : Bool) (verifiedBy : String) (timestamp : Nat) (tx : String)
  | professionalAccessRequested (requestId : Nat) (recordIds : List Nat)
      (professional patient tx : String)
  | accessGranted (recordId : Nat) (owner grantee : String) (expiration : Nat)
      (encryptedDek tx : String)
  | accessRevoked (patient professional : String) (recordIds : List Nat) (tx : String)
deriving DecidableEq, Repr

/-- External collaborators read inside handlers: the stable HTTP contract
binding (`httpContract.users(addr).publicKey`, `none` for a missing or
null key) and `event.getBlock()` (block timestamp in epoch seconds,
keyed by the event's transaction hash; `none` when the lookup returns
nothing). -/
structure Env where
  usersPublicKey : String → Option String
  getBlock : String → Option Nat

inductive LogLevel where
  | info
  | warn
  | error
deriving DecidableEq, Repr

structure LogEntry where
  level : LogLevel
  msg : String
  tx : Option String
deriving DecidableEq, Repr

/-- Fault oracle for the awaited store/chain operations of one handler
invocation: `faults i = some m` means the i-th operation rejects with
message `m`. -/
abbrev Faults := Nat → Option String

def noFaults : Faults := fun _ => none

/-- Outcome of a handler body: either the updated store with the logs
emitted so far, or a raised error carrying the message and the partial
state and logs at the point of failure. -/
abbrev HandlerResult := Except (String × Store × List LogEntry) (Store × List LogEntry)

/-! ## Event handler bodies

Each body is the `try` block of the corresponding handler in
`indexer.js`, with every awaited store/chain operation guarded by the
fault oracle.  Address parameters are lower-cased exactly where the
source lower-cases them. -/

def bodyRegistrationRequested (faults : Faults) (requestId : Nat)
    (hospitalName requesterAddress : String) (s : Store) : HandlerResult :=
  let logs := [LogEntry.mk .info "Event RegistrationRequested" none]
  match faults 0 with
  | some m => .error (m, s, logs)
  | none =>
    let doc : RegistrationRequest :=
      ⟨requestId, hospitalName, requesterAddress, "pending_hospital"⟩
    let rr := upsertBy (fun r => r.requestId == requestId) (fun _ => doc) doc
      s.registrationRequests
    .ok ({ s with registrationRequests := rr }, logs)

def bodyHospitalVerified (faults : Faults) (hospitalId : Nat)
    (adminAddress tx : String) (s : Store) : HandlerResult :=
  let logs := [LogEntry.mk .info "Event HospitalVerified" none]
  match faults 0 with
  | some m => .error (m, s, logs)
  | none =>
    match s.registrationRequests.find?
        (fun r => r.requestId == hospitalId && r.status == "verifying") with
    | none =>
      .ok (s, logs ++ [LogEntry.mk .warn "Did not find a VERIFYING request" (some tx)])
    | some req =>
      let rr := updateFirst (fun r => r.requestId == hospitalId && r.status == "verifying")
        (fun r => { r with status := "approved" }) s.registrationRequests
      let s1 := { s with registrationRequests := rr }
      match faults 1 with
      | some m => .error (m, s1, logs)
      | none =>
        let hospDoc : Hospital := ⟨hospitalId, req.hospitalName, adminAddress, true, "active"⟩
        let hs := upsertBy (fun h => h.hospitalId == hospitalId) (fun _ => hospDoc) hospDoc
          s1.hospitals
        let s2 := { s1 with hospitals := hs }
        match faults 2 with
        | some m => .error (m, s2, logs)
        | none =>
          let setAdmin : User → User := fun u =>
            { u with address := lower adminAddress,
                     name := "Admin for " ++ req.hospitalName,
                     role := "HospitalAdmin", professionalStatus := "approved",
                     isVerified := true, hospitalId := some hospitalId }
          let adminDoc : User :=
            ⟨lower adminAddress, "Admin for " ++ req.hospitalName, "HospitalAdmin",
             "approved", true, some hospitalId, none, none⟩
          let us := upsertBy (fun u => u.address == lower adminAddress) setAdmin adminDoc
            s2.users
          .ok ({ s2 with users := us }, logs)

def bodyHospitalRevoked (faults : Faults) (hospitalId : Nat) (s : Store) : HandlerResult :=
  let logs := [LogEntry.mk .info "Event HospitalRevoked" none]
  match faults 0 with
  | some m => .error (m, s, logs)
  | none =>
    let hs := updateFirst (fun h => h.hospitalId == hospitalId && h.status == "revoking")
      (fun h => { h with status := "revoked", isVerified := false }) s.hospitals
    let s1 := { s with hospitals := hs }
    match faults 1 with
    | some m => .error (m, s1, logs)
    | none =>
      let res := updateManyCount (fun u => u.hospitalId == some hospitalId)
          (fun u => { u with professionalStatus := "revoked", isVerified := false }) s1.users
      let logs2 := if 0 < res.2 then logs ++ [LogEntry.mk .info "Cascading Revoke" none] else logs
      .ok ({ s1 with users := res.1 }, logs2)

def roleEnumToString (role : Nat) : String :=
  if role == 1 then "Doctor"
  else if role == 7 then "LabTechnician"
  else "Unassigned Professional"

def bodyRoleAssigned (faults : Faults) (userAddress : String) (role hospitalId : Nat)
    (s : Store) : HandlerResult :=
  let logs := [LogEntry.mk .info "Event RoleAssigned" none]
  match faults 0 with
  | some m => .error (m, s, logs)
  | none =>
    let us := updateFirst (fun u => u.address == lower userAddress)
      (fun u => { u with role := roleEnumToString role, hospitalId := some hospitalId,
                         professionalStatus := "approved", isVerified := true })
      s.users
    .ok ({ s with users := us }, logs)

def bodyRoleRevoked (faults : Faults) (userAddress : String) (s : Store) : HandlerResult :=
  let logs := [LogEntry.mk .info "Event RoleRevoked" none]
  match faults 0 with
  | some m => .error (m, s, logs)
  | none =>
    let us := updateFirst (fun u => u.address == lower userAddress)
      (fun u => { u with role := "Patient", professionalStatus := "revoked",
                         isVerified := false, hospitalId := none,
                         requestedHospitalId := none })
      s.users
    .ok ({ s with users := us }, logs)

def bodyPublicKeySaved (faults : Faults) (env : Env) (userAddress : String)
    (s : Store) : HandlerResult :=
  let logs := [LogEntry.mk .info "Event PublicKeySaved" none]
  match faults 0 with
  | some m => .error (m, s, logs)
  | none =>
    match env.usersPublicKey userAddress with
    | some pk =>
      if 0 < pk.length then
        match faults 1 with
        | some m => .error (m, s, logs)
        | none =>
          let us := updateFirst (fun u => u.address == lower userAddress)
            (fun u => { u with publicKey := some pk }) s.users
          .ok ({ s with users := us }, logs)
      else .ok (s, logs)
    | none => .ok (s, logs)

def bodyRecordAdded (faults : Faults) (recordId : Nat)
    (owner title ipfsHash category : String) (isVerified : Bool) (verifiedBy : String)
    (timestamp : Nat) (s : Store) : HandlerResult :=
  let logs := [LogEntry.mk .info "Event RecordAdded" none]
  match faults 0 with
  | some m => .error (m, s, logs)
  | none =>
    let doc : MedicalRecord :=
      ⟨recordId, lower owner, title, ipfsHash, category, isVerified,
       lower verifiedBy, timestamp * 1000⟩
    let rs := upsertBy (fun r => r.recordId == recordId) (fun _ => doc) doc s.records
    .ok ({ s with records := rs }, logs)

def bodyProfessionalAccessRequested (faults : Faults) (requestId : Nat)
    (recordIds : List Nat) (professional patient : String) (s : Store) : HandlerResult :=
  let logs := [LogEntry.mk .info "Event ProfessionalAccessRequested" none]
  match faults 0 with
  | some m => .error (m, s, logs)
  | none =>
    let doc : AccessRequest :=
      ⟨requestId, recordIds, lower professional, lower patient, "pending"⟩
    let ars := upsertBy (fun r => r.requestId == requestId) (fun _ => doc) doc
      s.accessRequests
    .ok ({ s with accessRequests := ars }, logs)

def bodyAccessGranted (faults : Faults) (env : Env) (recordId : Nat)
    (owner grantee : String) (expiration : Nat) (encryptedDek tx : String)
    (s : Store) : HandlerResult :=
  match faults 0 with
  | some m => .error (m, s, [])
  | none =>
    match env.getBlock tx with
    | none =>
      .ok (s, [LogEntry.mk .warn ("Could not fetch block for event at hash: " ++ tx) none])
    | some blockTimestamp =>
      let logs := [LogEntry.mk .info "Event AccessGranted" none]
      match faults 1 with
      | some m => .error (m, s, logs)
      | none =>
        let doc : AccessGrant :=
          ⟨recordId, lower owner, lower grantee, expiration * 1000, encryptedDek,
           blockTimestamp * 1000⟩
        let gs := upsertBy
          (fun g => g.recordId == recordId && g.professionalAddress == lower grantee)
          (fun _ => doc) doc s.accessGrants
        .ok ({ s with accessGrants := gs }, logs)

def bodyAccessRevoked (faults : Faults) (professional : String) (recordIds : List Nat)
    (s : Store) : HandlerResult :=
  let logs := [LogEntry.mk .info "Event AccessRevoked" none]
  match faults 0 with
  | some m => .error (m, s, logs)
  | none =>
    let gs := s.accessGrants.filter
      (fun g => !(g.professionalAddress == lower professional
                   && recordIds.contains g.recordId))
    .ok ({ s with accessGrants := gs }, logs)

/-! ## Dispatch and the per-event failure boundary -/

def eventName : Event → String
  | .registrationRequested .. => "RegistrationRequested"
  | .hospitalVerified .. => "HospitalVerified"
  | .hospitalRevoked .. => "HospitalRevoked"
  | .roleAssigned .. => "RoleAssigned"
  | .roleRevoked .. => "RoleRevoked"
  | .publicKeySaved .. => "PublicKeySaved"
  | .recordAdded .. => "RecordAdded"
  | .professionalAccessRequested .. => "ProfessionalAccessRequested"
  | .accessGranted .. => "AccessGranted"
  | .accessRevoked .. => "AccessRevoked"

def eventTx : Event → String
  | .registrationRequested _ _ _ tx => tx
  | .hospitalVerified _ _ tx => tx
  | .hospitalRevoked _ tx => tx
  | .roleAssigned _ _ _ tx => tx
  | .roleRevoked _ tx => tx
  | .publicKeySaved _ tx => tx
  | .recordAdded _ _ _ _ _ _ _ _ tx => tx
  | .professionalAccessRequested _ _ _ _ tx => tx
  | .accessGranted _ _ _ _ _ tx => tx
  | .accessRevoked _ _ _ tx => tx

def bodyOf (faults : Faults) (env : Env) : Event → Store → HandlerResult
  | .registrationRequested rid hn ra _ => bodyRegistrationRequested faults rid hn ra
  | .hospitalVerified hid admin tx => bodyHospitalVerified faults hid admin tx
  | .hospitalRevoked hid _ => bodyHospitalRevoked faults hid
  | .roleAssigned ua role hid _ => bodyRoleAssigned faults ua role hid
  | .roleRevoked ua _ => bodyRoleRevoked faults ua
  | .publicKeySaved ua _ => bodyPublicKeySaved faults env ua
  | .recordAdded rid ow ti ih cat iv vb ts _ => bodyRecordAdded faults rid ow ti ih cat iv vb ts
  | .professionalAccessRequested rid rids p pa _ =>
      bodyProfessionalAccessRequested faults rid rids p pa
  | .accessGranted rid ow gr ex dek tx => bodyAccessGranted faults env rid ow gr ex dek tx
  | .accessRevoked _ prof rids _ => bodyAccessRevoked faults prof rids

/-- The `try { body } catch (e) { logger.error(..., tx) }` wrapper common
to every handler: an error raised by the body is caught, logged with the
transaction hash, and the handler returns normally with the partial
state; the event is dropped without retry. -/
def tryCatchE (name tx : String) (r : HandlerResult) : Store × List LogEntry :=
  match r with
  | .ok out => out
  | .error (m, s, logs) =>
    (s, logs ++ [LogEntry.mk .error ("Error processing " ++ name ++ ": " ++ m) (some tx)])

def handleEvent (faults : Faults) (env : Env) (e : Event) (s : Store) :
    Store × List LogEntry :=
  tryCatchE (eventName e) (eventTx e) (bodyOf faults env e s)

/-- Fault-free projection step: the store after one event is handled. -/
def step (env : Env) (e : Event) (s : Store) : Store :=
  (handleEvent noFaults env e s).1

/-! ## Connection Manager (`connectWebSocket` inside `startIndexer`)

The manager's two failure paths, modelled as the lists of actions each
code path performs. -/

inductive ConnAction where
  | logError
  | logInfo
  | scheduleRetry (delayMs : Nat)
  | attachListener (eventKind : String)
deriving DecidableEq, Repr

/-- The ten `wssContract.on(...)` attachments, in source order. -/
def listenerEvents : List String :=
  ["RegistrationRequested", "HospitalVerified", "HospitalRevoked", "RoleAssigned",
   "RoleRevoked", "PublicKeySaved", "RecordAdded", "ProfessionalAccessRequested",
   "AccessGranted", "AccessRevoked"]

/-- The catch block of `connectWebSocket`: log the failure, then
`setTimeout(connectWebSocket, 5000)`. -/
def constructionFailureActions : List ConnAction :=
  [ConnAction.logError, ConnAction.scheduleRetry 5000]

/-- The `wssProvider.on("error", ...)` callback body: it only logs the
error; reconnection is delegated to the provider library, and the
callback itself schedules no retry and re-attaches no listener. -/
def runtimeProviderErrorActions : List ConnAction :=
  [ConnAction.logError]

/-- Actions of the n-th `connectWebSocket` attempt, given whether
construction fails at that attempt: on failure the catch block runs; on
success the manager logs and attaches all ten contract listeners. -/
def attemptActions (fails : Nat → Bool) (n : Nat) : List ConnAction :=
  if fails n then constructionFailureActions
  else ConnAction.logInfo :: listenerEvents.map ConnAction.attachListener

/-- Attempt 0 is made by `startIndexer`; attempt n+1 is made exactly when
attempt n was made and its construction failed (only the catch block
schedules the next call). -/
def attemptReached (fails : Nat → Bool) : Nat → Bool
  | 0 => true
  | n + 1 => attemptReached fails n && fails n

/-! ## Invariants and concrete fixtures -/

/-- Uniqueness of a business key across a collection. -/
def KeyUnique {κ : Type _} {α : Type _} (key : α → κ) (l : List α) : Prop :=
  l.Pairwise (fun a b => key a ≠ key b)

/-- A string that is the image of the JS lower-casing, i.e. was
canonicalized before being stored. -/
def IsLowered (x : String) : Prop := ∃ a, x = lower a

/-- Every address-valued field that the handlers canonicalize is stored
lower-cased: User.address, MedicalRecord.owner / uploadedBy, both
AccessRequest addresses, and both AccessGrant addresses.
(RegistrationRequest.requesterAddress and Hospital.adminAddress are
deliberately absent: the source stores them verbatim.) -/
def AddrInv (s : Store) : Prop :=
  (∀ u ∈ s.users, IsLowered u.address) ∧
  (∀ r ∈ s.records, IsLowered r.owner ∧ IsLowered r.uploadedBy) ∧
  (∀ a ∈ s.accessRequests, IsLowered a.professionalAddress ∧ IsLowered a.patientAddress) ∧
  (∀ g ∈ s.accessGrants, IsLowered g.professionalAddress ∧ IsLowered g.patientAddress)

/-- The composite business key of an access grant. -/
def GrantKey (g : AccessGrant) : Nat × String := (g.recordId, g.professionalAddress)

/-- Key uniqueness for the two collections whose handlers update the
first matching document of a non-key filter: at most one
RegistrationRequest per requestId and at most one Hospital per
hospitalId, as the data model's keying prescribes. -/
def WellKeyed (s : Store) : Prop :=
  KeyUnique (fun r : RegistrationRequest => r.requestId) s.registrationRequests ∧
  KeyUnique (fun h : Hospital => h.hospitalId) s.hospitals

/-- Environment whose chain reads all fail/miss. -/
def envNone : Env := ⟨fun _ => none, fun _ => none⟩

/-- Environment with a fixed public key and block timestamp 50 for every
lookup. -/
def envFix : Env := ⟨fun _ => some "PK", fun _ => some 50⟩

/-! ## Generic lemmas about the store primitives -/

theorem updateFirst_of_find?_eq_none {p : α → Bool} {f : α → α} {l : List α}
    (h : l.find? p = none) : updateFirst p f l = l := by
  induction l with
  | nil => rfl
  | cons x xs ih =>
    rw [List.find?_cons] at h
    by_cases hx : p x
    · simp [hx] at h
    · simp only [Bool.not_eq_true] at hx
      rw [hx] at h
      simp [updateFirst, hx, ih h]

theorem updateFirst_mem_of_find? {p : α → Bool} {f : α → α} {l : List α} {r : α}
    (h : l.find? p = some r) : f r ∈ updateFirst p f l := by
  induction l with
  | nil => simp at h
  | cons x xs ih =>
    rw [List.find?_cons] at h
    by_cases hx : p x
    · simp only [hx, cond_true, Option.some.injEq] at h
      subst h
      simp [updateFirst, hx]
    · simp only [Bool.not_eq_true] at hx
      rw [hx] at h
      simp only [cond_false] at h
      simp [updateFirst, hx, ih h]

theorem mem_updateFirst {p : α → Bool} {f : α → α} {b : α} :
    ∀ {l : List α}, b ∈ updateFirst p f l → b ∈ l ∨ ∃ x ∈ l, p x = true ∧ b = f x
  | [], h => by simp [updateFirst] at h
  | x :: xs, h => by
    by_cases hx : p x
    · simp only [updateFirst, if_pos hx, List.mem_cons] at h
      rcases h with h | h
      · exact Or.inr ⟨x, List.mem_cons_self x xs, hx, h⟩
      · exact Or.inl (List.mem_cons_of_mem _ h)
    · simp only [updateFirst, if_neg hx, List.mem_cons] at h
      rcases h with h | h
      · exact Or.inl (h ▸ List.mem_cons_self x xs)
      · rcases mem_updateFirst h with h' | ⟨y, hy, hpy, hb⟩
        · exact Or.inl (List.mem_cons_of_mem _ h')
        · exact Or.inr ⟨y, List.mem_cons_of_mem _ hy, hpy, hb⟩

theorem mem_upsertBy {p : α → Bool} {f : α → α} {d : α} {l : List α} {b : α}
    (h : b ∈ upsertBy p f d l) : b ∈ l ∨ (∃ x ∈ l, p x = true ∧ b = f x) ∨ b = d := by
  unfold upsertBy at h
  by_cases ha : l.any p
  · rw [if_pos ha] at h
    rcases mem_updateFirst h with h' | h'
    · exact Or.inl h'
    · exact Or.inr (Or.inl h')
  · rw [if_neg ha] at h
    rcases List.mem_append.mp h with h' | h'
    · exact Or.inl h'
    · exact Or.inr (Or.inr (List.mem_singleton.mp h'))

theorem upsertBy_exists_mem {p : α → Bool} {f : α → α} {d : α} {l : List α}
    {Q : α → Prop} (hQf : ∀ x, p x = true → Q (f x)) (hQd : Q d) :
    ∃ b ∈ upsertBy p f d l, Q b := by
  unfold upsertBy
  by_cases ha : l.any p
  · rw [if_pos ha]
    rcases List.any_eq_true.mp ha with ⟨x, hx, hpx⟩
    have hf : l.find? p ≠ none := by
      intro hn
      rw [List.find?_eq_none] at hn
      exact hn x hx hpx
    rcases Option.ne_none_iff_exists'.mp hf with ⟨r, hr⟩
    have hpr : p r = true := List.find?_some hr
    exact ⟨f r, updateFirst_mem_of_find? hr, hQf r hpr⟩
  · rw [if_neg ha]
    exact ⟨d, List.mem_append.mpr (Or.inr (List.mem_singleton.mpr rfl)), hQd⟩

theorem length_updateFirst {p : α → Bool} {f : α → α} :
    ∀ l : List α, (updateFirst p f l).length = l.length
  | [] => rfl
  | x :: xs => by
    by_cases hx : p x
    · simp [updateFirst, if_pos hx]
    · simp [updateFirst, if_neg hx, length_updateFirst xs]

theorem any_updateFirst_of_any {p : α → Bool} {f : α → α}
    (hpf : ∀ x, p x = true → p (f x) = true) :
    ∀ {l : List α}, l.any p = true → (updateFirst p f l).any p = true
  | [], h => by simp at h
  | x :: xs, h => by
    by_cases hx : p x
    · simp [updateFirst, if_pos hx, hpf x hx]
    · simp only [List.any_cons, hx, Bool.false_or] at h
      simp [updateFirst, if_neg hx, hx, any_updateFirst_of_any hpf h]

theorem updateFirst_idem {p : α → Bool} {f : α → α}
    (hpf : ∀ x, p x = true → p (f x) = true)
    (hff : ∀ x, p x = true → f (f x) = f x) :
    ∀ l : List α, updateFirst p f (updateFirst p f l) = updateFirst p f l
  | [] => rfl
  | x :: xs => by
    by_cases hx : p x
    · simp [updateFirst, if_pos hx, if_pos (hpf x hx), hff x hx]
    · simp [updateFirst, if_neg hx, updateFirst_idem hpf hff xs]

theorem updateFirst_append_of_any_eq_false {p : α → Bool} {f : α → α} {l₂ : List α} :
    ∀ {l : List α}, l.any p = false → updateFirst p f (l ++ l₂) = l ++ updateFirst p f l₂
  | [], _ => rfl
  | x :: xs, h => by
    simp only [List.any_cons, Bool.or_eq_false_iff] at h
    have hx : ¬ p x = true := by simp [h.1]
    simp [updateFirst, if_neg hx, updateFirst_append_of_any_eq_false h.2]

theorem upsertBy_idem {p : α → Bool} {f : α → α} {d : α}
    (hpf : ∀ x, p x = true → p (f x) = true)
    (hff : ∀ x, p x = true → f (f x) = f x)
    (hpd : p d = true) (hfd : f d = d) (l : List α) :
    upsertBy p f d (upsertBy p f d l) = upsertBy p f d l := by
  unfold upsertBy
  by_cases ha : l.any p
  · rw [if_pos ha, if_pos (any_updateFirst_of_any hpf ha), updateFirst_idem hpf hff]
  · rw [if_neg ha]
    have ha' : (l ++ [d]).any p = true := by
      simp [List.any_append, hpd]
    rw [if_pos ha', updateFirst_append_of_any_eq_false (Bool.of_not_eq_true ha)]
    simp [updateFirst, hpd, hfd]

theorem keyUnique_updateFirst {κ : Type _} {key : α → κ} {p : α → Bool} {f : α → α}
    (hf : ∀ x, p x = true → key (f x) = key x) :
    ∀ {l : List α}, KeyUnique key l → KeyUnique key (updateFirst p f l)
  | [], _ => List.Pairwise.nil
  | x :: xs, h => by
    rcases List.pairwise_cons.mp h with ⟨hx_rest, hxs⟩
    by_cases hx : p x
    · rw [updateFirst, if_pos hx]
      refine List.pairwise_cons.mpr ⟨?_, hxs⟩
      intro b hb
      rw [hf x hx]
      exact hx_rest b hb
    · rw [updateFirst, if_neg hx]
      refine List.pairwise_cons.mpr ⟨?_, keyUnique_updateFirst hf hxs⟩
      intro b hb
      rcases mem_updateFirst hb with hb' | ⟨y, hy, hpy, hby⟩
      · exact hx_rest b hb'
      · rw [hby, hf y hpy]
        exact hx_rest y hy

theorem keyUnique_upsertBy {κ : Type _} {key : α → κ} {p : α → Bool} {f : α → α}
    {d : α} {k : κ} (hp : ∀ x, p x = true ↔ key x = k)
    (hf : ∀ x, p x = true → key (f x) = key x) (hd : key d = k)
    {l : List α} (h : KeyUnique key l) : KeyUnique key (upsertBy p f d l) := by
  unfold upsertBy
  by_cases ha : l.any p
  · rw [if_pos ha]
    exact keyUnique_updateFirst hf h
  · rw [if_neg ha]
    refine List.pairwise_append.mpr ⟨h, List.pairwise_singleton _ _, ?_⟩
    intro a hal b hb
    rw [List.mem_singleton.mp hb, hd]
    intro hak
    have : p a = true := (hp a).mpr hak
    exact ha (List.any_eq_true.mpr ⟨a, hal, this⟩)

theorem filter_updateFirst_const {κ : Type _} {key : α → κ} {p : α → Bool} {d : α}
    {k : κ} (hp : ∀ x, p x = true ↔ key x = k) (hpd : p d = true) :
    ∀ {l : List α}, KeyUnique key l → l.any p = true →
      (updateFirst p (fun _ => d) l).filter p = [d]
  | [], _, ha => by simp at ha
  | x :: xs, h, ha => by
    rcases List.pairwise_cons.mp h with ⟨hx_rest, hxs⟩
    by_cases hx : p x
    · rw [updateFirst, if_pos hx]
      have hxs_nil : xs.filter p = [] := by
        rw [List.filter_eq_nil_iff]
        intro b hb hpb
        exact hx_rest b hb (((hp x).mp hx).trans ((hp b).mp hpb).symm)
      simp [List.filter_cons, hpd, hxs_nil]
    · rw [updateFirst, if_neg hx]
      simp only [List.any_cons, hx, Bool.false_or] at ha
      simp [List.filter_cons, hx, filter_updateFirst_const hp hpd hxs ha]

theorem filter_upsertBy_const {κ : Type _} {key : α → κ} {p : α → Bool} {d : α}
    {k : κ} (hp : ∀ x, p x = true ↔ key x = k) (hpd : p d = true)
    {l : List α} (h : KeyUnique key l) :
    (upsertBy p (fun _ => d) d l).filter p = [d] := by
  unfold upsertBy
  by_cases ha : l.any p
  · rw [if_pos ha]
    exact filter_updateFirst_const hp hpd h ha
  · rw [if_neg ha, List.filter_append]
    have : l.filter p = [] := by
      rw [List.filter_eq_nil_iff]
      intro b hb hpb
      exact ha (List.any_eq_true.mpr ⟨b, hb, hpb⟩)
    simp [this, hpd]

theorem find?_updateFirst_none {κ : Type _} {key : α → κ} {p : α → Bool} {f : α → α}
    {k : κ} (hp : ∀ x, p x = true → key x = k)
    (hf : ∀ x, p x = true → p (f x) = false) :
    ∀ {l : List α}, KeyUnique key l → (updateFirst p f l).find? p = none
  | [], _ => rfl
  | x :: xs, h => by
    rcases List.pairwise_cons.mp h with ⟨hx_rest, hxs⟩
    by_cases hx : p x
    · rw [updateFirst, if_pos hx]
      rw [List.find?_eq_none]
      intro b hb hpb
      rcases List.mem_cons.mp hb with hb' | hb'
      · rw [hb'] at hpb
        exact absurd hpb (by simp [hf x hx])
      · exact hx_rest b hb' ((hp x hx).trans (hp b hpb).symm)
    · rw [updateFirst, if_neg hx]
      rw [List.find?_cons_of_neg _ hx]
      exact find?_updateFirst_none hp hf hxs

/-! ## Per-event unfolding equations for the fault-free step -/

theorem step_registrationRequested (env : Env) (rid : Nat) (hn ra tx : String)
    (s : Store) :
    step env (.registrationRequested rid hn ra tx) s =
      { s with
          registrationRequests :=
            upsertBy (fun r => r.requestId == rid)
              (fun _ => ⟨rid, hn, ra, "pending_hospital"⟩)
              ⟨rid, hn, ra, "pending_hospital"⟩ s.registrationRequests } := rfl

theorem step_hospitalVerified_of_none (env : Env) (hid : Nat) (admin tx : String)
    (s : Store)
    (h : s.registrationRequests.find?
        (fun r => r.requestId == hid && r.status == "verifying") = none) :
    step env (.hospitalVerified hid admin tx) s = s := by
  simp only [step, handleEvent, bodyOf, bodyHospitalVerified, noFaults, h, tryCatchE]

theorem handleEvent_hospitalVerified_of_none (env : Env) (hid : Nat) (admin tx : String)
    (s : Store)
    (h : s.registrationRequests.find?
        (fun r => r.requestId == hid && r.status == "verifying") = none) :
    handleEvent noFaults env (.hospitalVerified hid admin tx) s =
      (s, [LogEntry.mk .info "Event HospitalVerified" none,
           LogEntry.mk .warn "Did not find a VERIFYING request" (some tx)]) := by
  simp only [handleEvent, bodyOf, bodyHospitalVerified, noFaults, h, tryCatchE]
  rfl

theorem step_hospitalVerified_of_some (env : Env) (hid : Nat) (admin tx : String)
    (s : Store) (req : RegistrationRequest)
    (h : s.registrationRequests.find?
        (fun r => r.requestId == hid && r.status == "verifying") = some req) :
    step env (.hospitalVerified hid admin tx) s =
      { s with
          registrationRequests :=
            updateFirst (fun r => r.requestId == hid && r.status == "verifying")
              (fun r => { r with status := "approved" }) s.registrationRequests,
          hospitals :=
            upsertBy (fun hh => hh.hospitalId == hid)
              (fun _ => ⟨hid, req.hospitalName, admin, true, "active"⟩)
              ⟨hid, req.hospitalName, admin, true, "active"⟩ s.hospitals,
          users :=
            upsertBy (fun u => u.address == lower admin)
              (fun u =>
                { u with address := lower admin,
                         name := "Admin for " ++ req.hospitalName,
                         role := "HospitalAdmin", professionalStatus := "approved",
                         isVerified := true, hospitalId := some hid })
              ⟨lower admin, "Admin for " ++ req.hospitalName, "HospitalAdmin",
               "approved", true, some hid, none, none⟩ s.users } := by
  simp only [step, handleEvent, bodyOf, bodyHospitalVerified, noFaults, h, tryCatchE]

theorem step_hospitalRevoked (env : Env) (hid : Nat) (tx : String) (s : Store) :
    step env (.hospitalRevoked hid tx) s =
      { s with
          hospitals :=
            updateFirst (fun h => h.hospitalId == hid && h.status == "revoking")
              (fun h => { h with status := "revoked", isVerified := false }) s.hospitals,
          users :=
            (updateManyCount (fun u => u.hospitalId == some hid)
              (fun u => { u with professionalStatus := "revoked", isVerified := false })
              s.users).1 } := rfl

theorem step_roleAssigned (env : Env) (ua : String) (role hid : Nat) (tx : String)
    (s : Store) :
    step env (.roleAssigned ua role hid tx) s =
      { s with
          users :=
            updateFirst (fun u => u.address == lower ua)
              (fun u =>
                { u with role := roleEnumToString role, hospitalId := some hid,
                         professionalStatus := "approved", isVerified := true })
              s.users } := rfl

theorem step_roleRevoked (env : Env) (ua tx : String) (s : Store) :
    step env (.roleRevoked ua tx) s =
      { s with
          users :=
            updateFirst (fun u => u.address == lower ua)
              (fun u =>
                { u with role := "Patient", professionalStatus := "revoked",
                         isVerified := false, hospitalId := none,
                         requestedHospitalId := none })
              s.users } := rfl

theorem step_publicKeySaved_of_none (env : Env) (ua tx : String) (s : Store)
    (h : env.usersPublicKey ua = none) :
    step env (.publicKeySaved ua tx) s = s := by
  simp only [step, handleEvent, bodyOf, bodyPublicKeySaved, noFaults, h, tryCatchE]

theorem step_publicKeySaved_of_empty (env : Env) (ua tx : String) (s : Store)
    (pk : String) (h : env.usersPublicKey ua = some pk) (hlen : ¬ 0 < pk.length) :
    step env (.publicKeySaved ua tx) s = s := by
  simp only [step, handleEvent, bodyOf, bodyPublicKeySaved, noFaults, h, tryCatchE,
    if_neg hlen]

theorem step_publicKeySaved_of_pos (env : Env) (ua tx : String) (s : Store)
    (pk : String) (h : env.usersPublicKey ua = some pk) (hlen : 0 < pk.length) :
    step env (.publicKeySaved ua tx) s =
      { s with
          users :=
            updateFirst (fun u => u.address == lower ua)
              (fun u => { u with publicKey := some pk }) s.users } := by
  simp only [step, handleEvent, bodyOf, bodyPublicKeySaved, noFaults, h, tryCatchE,
    if_pos hlen]

theorem step_recordAdded (env : Env) (rid : Nat) (ow ti ih cat : String) (iv : Bool)
    (vb : String) (ts : Nat) (tx : String) (s : Store) :
    step env (.recordAdded rid ow ti ih cat iv vb ts tx) s =
      { s with
          records :=
            upsertBy (fun r => r.recordId == rid)
              (fun _ => ⟨rid, lower ow, ti, ih, cat, iv, lower vb, ts * 1000⟩)
              ⟨rid, lower ow, ti, ih, cat, iv, lower vb, ts * 1000⟩ s.records } := rfl

theorem step_professionalAccessRequested (env : Env) (rid : Nat) (rids : List Nat)
    (prof pat tx : String) (s : Store) :
    step env (.professionalAccessRequested rid rids prof pat tx) s =
      { s with
          accessRequests :=
            upsertBy (fun r => r.requestId == rid)
              (fun _ => ⟨rid, rids, lower prof, lower pat, "pending"⟩)
              ⟨rid, rids, lower prof, lower pat, "pending"⟩ s.accessRequests } := rfl

theorem step_accessGranted_of_none (env : Env) (rid : Nat) (ow gr : String)
    (exp : Nat) (dek tx : String) (s : Store) (h : env.getBlock tx = none) :
    step env (.accessGranted rid ow gr exp dek tx) s = s := by
  simp only [step, handleEvent, bodyOf, bodyAccessGranted, noFaults, h, tryCatchE]

theorem handleEvent_accessGranted_of_none (env : Env) (rid : Nat) (ow gr : String)
    (exp : Nat) (dek tx : String) (s : Store) (h : env.getBlock tx = none) :
    handleEvent noFaults env (.accessGranted rid ow gr exp dek tx) s =
      (s, [LogEntry.mk .warn ("Could not fetch block for event at hash: " ++ tx) none]) := by
  simp only [handleEvent, bodyOf, bodyAccessGranted, noFaults, h, tryCatchE]

theorem step_accessGranted_of_some (env : Env) (rid : Nat) (ow gr : String)
    (exp : Nat) (dek tx : String) (s : Store) (bt : Nat) (h : env.getBlock tx = some bt) :
    step env (.accessGranted rid ow gr exp dek tx) s =
      { s with
          accessGrants :=
            upsertBy (fun g => g.recordId == rid && g.professionalAddress == lower gr)
              (fun _ => ⟨rid, lower ow, lower gr, exp * 1000, dek, bt * 1000⟩)
              ⟨rid, lower ow, lower gr, exp * 1000, dek, bt * 1000⟩ s.accessGrants } := by
  simp only [step, handleEvent, bodyOf, bodyAccessGranted, noFaults, h, tryCatchE]

theorem step_accessRevoked (env : Env) (pat prof : String) (rids : List Nat)
    (tx : String) (s : Store) :
    step env (.accessRevoked pat prof rids tx) s =
      { s with
          accessGrants :=
            s.accessGrants.filter
              (fun g => !(g.professionalAddress == lower prof
                           && rids.contains g.recordId)) } := rfl

/-! ## Claim C1 -/

/-- C1 counterexample: the claim says a runtime provider error leads to
the same retry loop as a construction-time error (log, 5-second delay,
re-subscribe, re-attach all ten listeners).  In the source the
`wssProvider.on("error", ...)` callback only logs: it schedules no
5-second retry and attaches no listener, so the two paths differ. -/
theorem C1_counterexample :
    runtimeProviderErrorActions = [ConnAction.logError] ∧
    runtimeProviderErrorActions ≠ constructionFailureActions ∧
    ConnAction.scheduleRetry 5000 ∉ runtimeProviderErrorActions ∧
    ConnAction.attachListener "AccessGranted" ∉ runtimeProviderErrorActions :=
  ⟨rfl, by decide, by decide, by decide⟩

/-- C1 (amended): only a construction-time error of `connectWebSocket`
enters the retry loop: the failure is logged and the reconnect is
scheduled after a fixed 5000 ms delay, with no maximum retry count (if
the first n attempts fail, attempt n is still reached); a successful
attempt attaches all ten contract event listeners.  A runtime provider
error, by contrast, is only logged — reconnection is delegated to the
provider library and the manager re-attaches nothing. -/
theorem C1_connection_retry (fails : Nat → Bool) (n : Nat)
    (h : ∀ m, m < n → fails m = true) :
    attemptReached fails n = true ∧
    listenerEvents.length = 10 ∧
    (fails n = true →
      attemptActions fails n = [ConnAction.logError, ConnAction.scheduleRetry 5000]) ∧
    (fails n = false →
      ∀ nm ∈ listenerEvents, ConnAction.attachListener nm ∈ attemptActions fails n) ∧
    runtimeProviderErrorActions = [ConnAction.logError] := by
  refine ⟨?_, rfl, ?_, ?_, rfl⟩
  · induction n with
    | zero => rfl
    | succ k ih =>
      rw [attemptReached, ih (fun m hm => h m (Nat.lt_succ_of_lt hm)),
        h k (Nat.lt_succ_self k)]
      rfl
  · intro hf
    rw [attemptActions, if_pos hf]
    rfl
  · intro hf nm hnm
    rw [attemptActions, if_neg (by simp [hf])]
    exact List.mem_cons_of_mem _ (List.mem_map.mpr ⟨nm, hnm, rfl⟩)

/-- Witness for C1: three failing attempts still reach attempt 3; a
failing attempt 3 runs the catch block; a successful attempt 3 attaches
the AccessGranted listener. -/
theorem C1_connection_retry_witness :
    attemptReached (fun m => decide (m < 3)) 3 = true ∧
    attemptActions (fun m => decide (m < 4)) 3
      = [ConnAction.logError, ConnAction.scheduleRetry 5000] ∧
    ConnAction.attachListener "AccessGranted"
      ∈ attemptActions (fun m => decide (m < 3)) 3 :=
  ⟨(C1_connection_retry (fun m => decide (m < 3)) 3 (by decide)).1,
   (C1_connection_retry (fun m => decide (m < 4)) 3 (by decide)).2.2.1 (by decide),
   (C1_connection_retry (fun m => decide (m < 3)) 3 (by decide)).2.2.2.1 (by decide)
     "AccessGranted" (by decide)⟩

/-! ## Claim C6 -/

/-- C6 counterexample: the claim says every address-valued event
parameter is lower-cased before being stored, naming the
requesterAddress stored by RegistrationRequested and the adminAddress
stored on the Hospital document by HospitalVerified.  Both are stored
verbatim: the mixed-case address "0xAB" is persisted unchanged in both
places, yet its lower-casing differs from it. -/
theorem C6_counterexample :
    (step envNone (.registrationRequested 7 "H" "0xAB" "t")
        emptyStore).registrationRequests
      = [⟨7, "H", "0xAB", "pending_hospital"⟩] ∧
    (step envNone (.hospitalVerified 7 "0xAB" "t")
        { emptyStore with
            registrationRequests := [⟨7, "N", "x", "verifying"⟩] }).hospitals
      = [⟨7, "N", "0xAB", true, "active"⟩] ∧
    lower "0xAB" ≠ "0xAB" :=
  ⟨by decide, by decide, by decide⟩

/-- C6 (amended): the handlers lower-case addresses used as User query
keys and stored on User, MedicalRecord, AccessRequest and AccessGrant
documents, so those collections never acquire a mixed-case address; the
exceptions are RegistrationRequest.requesterAddress and
Hospital.adminAddress, which are stored as received. -/
theorem C6_lowercasing (env : Env) (e : Event) (s : Store) (h : AddrInv s) :
    AddrInv (step env e s) := by
  obtain ⟨hu, hr, ha, hg⟩ := h
  cases e with
  | registrationRequested rid hn ra tx =>
    rw [step_registrationRequested]
    exact ⟨hu, hr, ha, hg⟩
  | hospitalVerified hid admin tx =>
    cases hfind : s.registrationRequests.find?
        (fun r => r.requestId == hid && r.status == "verifying") with
    | none =>
      rw [step_hospitalVerified_of_none env hid admin tx s hfind]
      exact ⟨hu, hr, ha, hg⟩
    | some req =>
      rw [step_hospitalVerified_of_some env hid admin tx s req hfind]
      refine ⟨?_, hr, ha, hg⟩
      intro u hmem
      rcases mem_upsertBy hmem with h' | ⟨x, _, _, hux⟩ | hud
      · exact hu u h'
      · rw [hux]
        exact ⟨admin, rfl⟩
      · rw [hud]
        exact ⟨admin, rfl⟩
  | hospitalRevoked hid tx =>
    rw [step_hospitalRevoked]
    refine ⟨?_, hr, ha, hg⟩
    intro u hmem
    simp only [updateManyCount, List.mem_map] at hmem
    rcases hmem with ⟨x, hx, hxu⟩
    by_cases hp : (x.hospitalId == some hid) = true
    · rw [if_pos hp] at hxu
      rw [← hxu]
      exact hu x hx
    · rw [if_neg hp] at hxu
      rw [← hxu]
      exact hu x hx
  | roleAssigned ua role hid tx =>
    rw [step_roleAssigned]
    refine ⟨?_, hr, ha, hg⟩
    intro u hmem
    rcases mem_updateFirst hmem with h' | ⟨x, hx, _, hux⟩
    · exact hu u h'
    · rw [hux]
      exact hu x hx
  | roleRevoked ua tx =>
    rw [step_roleRevoked]
    refine ⟨?_, hr, ha, hg⟩
    intro u hmem
    rcases mem_updateFirst hmem with h' | ⟨x, hx, _, hux⟩
    · exact hu u h'
    · rw [hux]
      exact hu x hx
  | publicKeySaved ua tx =>
    cases hpk : env.usersPublicKey ua with
    | none =>
      rw [step_publicKeySaved_of_none env ua tx s hpk]
      exact ⟨hu, hr, ha, hg⟩
    | some pk =>
      by_cases hlen : 0 < pk.length
      · rw [step_publicKeySaved_of_pos env ua tx s pk hpk hlen]
        refine ⟨?_, hr, ha, hg⟩
        intro u hmem
        rcases mem_updateFirst hmem with h' | ⟨x, hx, _, hux⟩
        · exact hu u h'
        · rw [hux]
          exact hu x hx
      · rw [step_publicKeySaved_of_empty env ua tx s pk hpk hlen]
        exact ⟨hu, hr, ha, hg⟩
  | recordAdded rid ow ti ih cat iv vb ts tx =>
    rw [step_recordAdded]
    refine ⟨hu, ?_, ha, hg⟩
    intro r hmem
    rcases mem_upsertBy hmem with h' | ⟨x, _, _, hrx⟩ | hrd
    · exact hr r h'
    · rw [hrx]
      exact ⟨⟨ow, rfl⟩, ⟨vb, rfl⟩⟩
    · rw [hrd]
      exact ⟨⟨ow, rfl⟩, ⟨vb, rfl⟩⟩
  | professionalAccessRequested rid rids prof pat tx =>
    rw [step_professionalAccessRequested]
    refine ⟨hu, hr, ?_, hg⟩
    intro a hmem
    rcases mem_upsertBy hmem with h' | ⟨x, _, _, hax⟩ | had
    · exact ha a h'
    · rw [hax]
      exact ⟨⟨prof, rfl⟩, ⟨pat, rfl⟩⟩
    · rw [had]
      exact ⟨⟨prof, rfl⟩, ⟨pat, rfl⟩⟩
  | accessGranted rid ow gr exp dek tx =>
    cases hb : env.getBlock tx with
    | none =>
      rw [step_accessGranted_of_none env rid ow gr exp dek tx s hb]
      exact ⟨hu, hr, ha, hg⟩
    | some bt =>
      rw [step_accessGranted_of_some env rid ow gr exp dek tx s bt hb]
      refine ⟨hu, hr, ha, ?_⟩
      intro g hmem
      rcases mem_upsertBy hmem with h' | ⟨x, _, _, hgx⟩ | hgd
      · exact hg g h'
      · rw [hgx]
        exact ⟨⟨gr, rfl⟩, ⟨ow, rfl⟩⟩
      · rw [hgd]
        exact ⟨⟨gr, rfl⟩, ⟨ow, rfl⟩⟩
  | accessRevoked pat prof rids tx =>
    rw [step_accessRevoked]
    refine ⟨hu, hr, ha, ?_⟩
    intro g hmem
    exact hg g (List.mem_of_mem_filter hmem)

/-- Witness for C6 (amended): the empty store satisfies the address
invariant and keeps it after an AccessGranted event. -/
theorem C6_lowercasing_witness :
    AddrInv (step envFix (.accessGranted 1 "0xA" "0xB" 9 "k" "t") emptyStore) :=
  C6_lowercasing envFix (.accessGranted 1 "0xA" "0xB" 9 "k" "t") emptyStore
    ⟨fun u hu => absurd hu (List.not_mem_nil u),
     fun r hr => absurd hr (List.not_mem_nil r),
     fun a ha => absurd ha (List.not_mem_nil a),
     fun g hg => absurd hg (List.not_mem_nil g)⟩

/-! ## Claim C7 -/

theorem updateManyCount_fst_idem [DecidableEq α] {p : α → Bool} {f : α → α}
    (hpf : ∀ x, p (f x) = p x) (hff : ∀ x, p x = true → f (f x) = f x) (l : List α) :
    (updateManyCount p f ((updateManyCount p f l).1)).1 = (updateManyCount p f l).1 := by
  simp only [updateManyCount, List.map_map]
  refine List.map_congr_left ?_
  intro x _
  simp only [Function.comp_apply]
  by_cases hx : p x = true
  · rw [if_pos hx, if_pos (show p (f x) = true by rw [hpf x]; exact hx)]
    exact hff x hx
  · rw [if_neg hx, if_neg hx]

/-- C7 counterexample: with two RegistrationRequests sharing
requestId 7 and both in status "verifying" (a store that violates the
data model's one-document-per-requestId keying), handling
HospitalVerified(7) twice approves the second duplicate as well and
overwrites the Hospital's name, so the claim's "every store state"
quantification fails. -/
theorem C7_counterexample :
    step envNone (.hospitalVerified 7 "a" "t")
        (step envNone (.hospitalVerified 7 "a" "t")
          { emptyStore with
              registrationRequests :=
                [⟨7, "A", "x", "verifying"⟩, ⟨7, "B", "y", "verifying"⟩] })
      ≠ step envNone (.hospitalVerified 7 "a" "t")
          { emptyStore with
              registrationRequests :=
                [⟨7, "A", "x", "verifying"⟩, ⟨7, "B", "y", "verifying"⟩] } := by
  decide

/-- C7 (amended): on stores whose RegistrationRequests have pairwise
distinct requestIds and whose Hospitals have pairwise distinct
hospitalIds — the keying the data model prescribes — every one of the
ten handlers is idempotent: applying the same event twice in succession
yields the same projected store as applying it once. -/
theorem C7_idempotent (env : Env) (e : Event) (s : Store) (h : WellKeyed s) :
    step env e (step env e s) = step env e s := by
  cases e with
  | registrationRequested rid hn ra tx =>
    exact congrArg (fun l => { s with registrationRequests := l })
      (upsertBy_idem (p := fun r => r.requestId == rid)
        (f := fun _ => ⟨rid, hn, ra, "pending_hospital"⟩)
        (d := (⟨rid, hn, ra, "pending_hospital"⟩ : RegistrationRequest))
        (fun x _ => by simp) (fun x _ => rfl) (by simp) rfl
        s.registrationRequests)
  | hospitalVerified hid admin tx =>
    cases hfind : s.registrationRequests.find?
        (fun r => r.requestId == hid && r.status == "verifying") with
    | none =>
      rw [step_hospitalVerified_of_none env hid admin tx s hfind,
        step_hospitalVerified_of_none env hid admin tx s hfind]
    | some req =>
      have hnone : (step env (.hospitalVerified hid admin tx) s).registrationRequests.find?
          (fun r => r.requestId == hid && r.status == "verifying") = none := by
        rw [step_hospitalVerified_of_some env hid admin tx s req hfind]
        refine find?_updateFirst_none (k := hid) ?_ ?_ h.1
        · intro x hx
          simp only [Bool.and_eq_true, beq_iff_eq] at hx
          exact hx.1
        · intro x hx
          have hv : (("approved" : String) == "verifying") = false := by decide
          simp [hv]
      exact step_hospitalVerified_of_none env hid admin tx _ hnone
  | hospitalRevoked hid tx =>
    have hH : updateFirst (fun hh => hh.hospitalId == hid && hh.status == "revoking")
        (fun hh => { hh with status := "revoked", isVerified := false })
        (updateFirst (fun hh => hh.hospitalId == hid && hh.status == "revoking")
          (fun hh => { hh with status := "revoked", isVerified := false }) s.hospitals)
        = updateFirst (fun hh => hh.hospitalId == hid && hh.status == "revoking")
            (fun hh => { hh with status := "revoked", isVerified := false }) s.hospitals := by
      refine updateFirst_of_find?_eq_none (find?_updateFirst_none (k := hid) ?_ ?_ h.2)
      · intro x hx
        simp only [Bool.and_eq_true, beq_iff_eq] at hx
        exact hx.1
      · intro x hx
        have hv : (("revoked" : String) == "revoking") = false := by decide
        simp [hv]
    have hU := updateManyCount_fst_idem (p := fun u => u.hospitalId == some hid)
      (f := fun u => { u with professionalStatus := "revoked", isVerified := false })
      (fun x => rfl) (fun x _ => rfl) s.users
    exact congr_arg₂ (fun l1 l2 => { s with hospitals := l1, users := l2 }) hH hU
  | roleAssigned ua role hid tx =>
    exact congrArg (fun l => { s with users := l })
      (updateFirst_idem (p := fun u => u.address == lower ua)
        (f := fun u =>
          { u with role := roleEnumToString role, hospitalId := some hid,
                   professionalStatus := "approved", isVerified := true })
        (fun x hx => hx) (fun x _ => rfl) s.users)
  | roleRevoked ua tx =>
    exact congrArg (fun l => { s with users := l })
      (updateFirst_idem (p := fun u => u.address == lower ua)
        (f := fun u =>
          { u with role := "Patient", professionalStatus := "revoked",
                   isVerified := false, hospitalId := none,
                   requestedHospitalId := none })
        (fun x hx => hx) (fun x _ => rfl) s.users)
  | publicKeySaved ua tx =>
    cases hpk : env.usersPublicKey ua with
    | none =>
      rw [step_publicKeySaved_of_none env ua tx s hpk,
        step_publicKeySaved_of_none env ua tx s hpk]
    | some pk =>
      by_cases hlen : 0 < pk.length
      · rw [step_publicKeySaved_of_pos env ua tx s pk hpk hlen,
          step_publicKeySaved_of_pos env ua tx _ pk hpk hlen]
        exact congrArg (fun l => { s with users := l })
          (updateFirst_idem (p := fun u => u.address == lower ua)
            (f := fun u => { u with publicKey := some pk })
            (fun x hx => hx) (fun x _ => rfl) s.users)
      · rw [step_publicKeySaved_of_empty env ua tx s pk hpk hlen,
          step_publicKeySaved_of_empty env ua tx s pk hpk hlen]
  | recordAdded rid ow ti ih cat iv vb ts tx =>
    exact congrArg (fun l => { s with records := l })
      (upsertBy_idem (p := fun r => r.recordId == rid)
        (f := fun _ => ⟨rid, lower ow, ti, ih, cat, iv, lower vb, ts * 1000⟩)
        (d := (⟨rid, lower ow, ti, ih, cat, iv, lower vb, ts * 1000⟩ : MedicalRecord))
        (fun x _ => by simp) (fun x _ => rfl) (by simp) rfl s.records)
  | professionalAccessRequested rid rids prof pat tx =>
    exact congrArg (fun l => { s with accessRequests := l })
      (upsertBy_idem (p := fun r => r.requestId == rid)
        (f := fun _ => ⟨rid, rids, lower prof, lower pat, "pending"⟩)
        (d := (⟨rid, rids, lower prof, lower pat, "pending"⟩ : AccessRequest))
        (fun x _ => by simp) (fun x _ => rfl) (by simp) rfl s.accessRequests)
  | accessGranted rid ow gr exp dek tx =>
    cases hb : env.getBlock tx with
    | none =>
      rw [step_accessGranted_of_none env rid ow gr exp dek tx s hb,
        step_accessGranted_of_none env rid ow gr exp dek tx s hb]
    | some bt =>
      rw [step_accessGranted_of_some env rid ow gr exp dek tx s bt hb,
        step_accessGranted_of_some env rid ow gr exp dek tx _ bt hb]
      exact congrArg (fun l => { s with accessGrants := l })
        (upsertBy_idem
          (p := fun g => g.recordId == rid && g.professionalAddress == lower gr)
          (f := fun _ => ⟨rid, lower ow, lower gr, exp * 1000, dek, bt * 1000⟩)
          (d := (⟨rid, lower ow, lower gr, exp * 1000, dek, bt * 1000⟩ : AccessGrant))
          (fun x _ => by simp) (fun x _ => rfl) (by simp) rfl s.accessGrants)
  | accessRevoked pat prof rids tx =>
    have hF : List.filter
        (fun g => !(g.professionalAddress == lower prof && rids.contains g.recordId))
        (List.filter
          (fun g => !(g.professionalAddress == lower prof && rids.contains g.recordId))
          s.accessGrants)
        = List.filter
            (fun g => !(g.professionalAddress == lower prof && rids.contains g.recordId))
            s.accessGrants := by
      rw [List.filter_filter]
      exact List.filter_congr (fun x _ => by rw [Bool.and_self])
    exact congrArg (fun l => { s with accessGrants := l }) hF

/-- Witness for C7 (amended): idempotence of HospitalVerified(7) on a
well-keyed one-request store. -/
theorem C7_idempotent_witness :
    step envNone (.hospitalVerified 7 "0xB" "t")
        (step envNone (.hospitalVerified 7 "0xB" "t")
          { emptyStore with registrationRequests := [⟨7, "N", "x", "verifying"⟩] })
      = step envNone (.hospitalVerified 7 "0xB" "t")
          { emptyStore with registrationRequests := [⟨7, "N", "x", "verifying"⟩] } :=
  C7_idempotent envNone (.hospitalVerified 7 "0xB" "t")
    { emptyStore with registrationRequests := [⟨7, "N", "x", "verifying"⟩] }
    ⟨List.pairwise_singleton _ _, List.Pairwise.nil⟩

/-! ## Claim C2 -/

theorem upsertBy_const_mem {p : α → Bool} {d : α} (l : List α) :
    d ∈ upsertBy p (fun _ => d) d l := by
  rcases upsertBy_exists_mem (Q := fun b => b = d) (l := l) (fun x _ => rfl) rfl
    with ⟨b, hb, hbd⟩
  rwa [hbd] at hb

/-- C2: a HospitalVerified(h, admin) event with no RegistrationRequest
in status "verifying" for requestId h leaves the store untouched and
merely logs a warning; when such a request exists, its status becomes
"approved", a Hospital (hospitalId h, the request's name, isVerified,
active) is upserted, and a HospitalAdmin User for the lower-cased admin
address with hospitalId h is upserted. -/
theorem C2_hospitalVerified (env : Env) (hid : Nat) (admin tx : String) (s : Store) :
    ((∀ r ∈ s.registrationRequests, ¬(r.requestId = hid ∧ r.status = "verifying")) →
      handleEvent noFaults env (.hospitalVerified hid admin tx) s =
        (s, [LogEntry.mk .info "Event HospitalVerified" none,
             LogEntry.mk .warn "Did not find a VERIFYING request" (some tx)])) ∧
    (∀ req, s.registrationRequests.find?
          (fun r => r.requestId == hid && r.status == "verifying") = some req →
      ({ req with status := "approved" }
          ∈ (step env (.hospitalVerified hid admin tx) s).registrationRequests ∧
        (⟨hid, req.hospitalName, admin, true, "active"⟩ : Hospital)
          ∈ (step env (.hospitalVerified hid admin tx) s).hospitals ∧
        ∃ u ∈ (step env (.hospitalVerified hid admin tx) s).users,
          u.address = lower admin ∧ u.role = "HospitalAdmin" ∧
          u.professionalStatus = "approved" ∧ u.isVerified = true ∧
          u.hospitalId = some hid)) := by
  constructor
  · intro hnone
    have hfind : s.registrationRequests.find?
        (fun r => r.requestId == hid && r.status == "verifying") = none := by
      rw [List.find?_eq_none]
      intro x hx hpx
      simp only [Bool.and_eq_true, beq_iff_eq] at hpx
      exact hnone x hx hpx
    exact handleEvent_hospitalVerified_of_none env hid admin tx s hfind
  · intro req hfind
    rw [step_hospitalVerified_of_some env hid admin tx s req hfind]
    refine ⟨updateFirst_mem_of_find? hfind, upsertBy_const_mem s.hospitals, ?_⟩
    exact upsertBy_exists_mem
      (Q := fun u : User => u.address = lower admin ∧ u.role = "HospitalAdmin" ∧
        u.professionalStatus = "approved" ∧ u.isVerified = true ∧
        u.hospitalId = some hid)
      (fun x _ => ⟨rfl, rfl, rfl, rfl, rfl⟩) ⟨rfl, rfl, rfl, rfl, rfl⟩

/-- Witness for C2: a missing verifying request leaves the empty store
unchanged with a warning; a present one yields the Hospital document. -/
theorem C2_hospitalVerified_witness :
    handleEvent noFaults envNone (.hospitalVerified 9 "0xC" "t") emptyStore
      = (emptyStore,
         [LogEntry.mk .info "Event HospitalVerified" none,
          LogEntry.mk .warn "Did not find a VERIFYING request" (some "t")]) ∧
    (⟨5, "N", "0xC", true, "active"⟩ : Hospital)
      ∈ (step envNone (.hospitalVerified 5 "0xC" "t")
          { emptyStore with
              registrationRequests := [⟨5, "N", "x", "verifying"⟩] }).hospitals :=
  ⟨(C2_hospitalVerified envNone 9 "0xC" "t" emptyStore).1
      (fun r hr => absurd hr (List.not_mem_nil r)),
   ((C2_hospitalVerified envNone 5 "0xC" "t"
        { emptyStore with
            registrationRequests := [⟨5, "N", "x", "verifying"⟩] }).2
      ⟨5, "N", "x", "verifying"⟩ (by decide)).2.1⟩

/-! ## Claim C3 -/

/-- C3: two successive AccessGranted events for the same
(recordId, grantee) pair leave exactly one grant for that pair, carrying
the second event's expiration and wrapped key (given both block lookups
succeed and the store starts with unique grant keys); and key-uniqueness
of the AccessGrant collection is preserved by every handler. -/
theorem C3_access_grant_unique (env : Env) (r : Nat) (ow g : String)
    (e1 e2 : Nat) (k1 k2 tx1 tx2 : String) (b1 b2 : Nat) (s : Store)
    (h1 : env.getBlock tx1 = some b1) (h2 : env.getBlock tx2 = some b2)
    (hu : KeyUnique GrantKey s.accessGrants) :
    ((step env (.accessGranted r ow g e2 k2 tx2)
        (step env (.accessGranted r ow g e1 k1 tx1) s)).accessGrants.filter
          (fun gr => gr.recordId == r && gr.professionalAddress == lower g))
      = [⟨r, lower ow, lower g, e2 * 1000, k2, b2 * 1000⟩] ∧
    (∀ (env2 : Env) (e : Event) (s2 : Store), KeyUnique GrantKey s2.accessGrants →
      KeyUnique GrantKey (step env2 e s2).accessGrants) := by
  have hp : ∀ (rid : Nat) (gr2 : String) (x : AccessGrant),
      (x.recordId == rid && x.professionalAddress == lower gr2) = true
        ↔ GrantKey x = (rid, lower gr2) := by
    intro rid gr2 x
    simp [GrantKey, Prod.ext_iff, Bool.and_eq_true, beq_iff_eq]
  constructor
  · rw [step_accessGranted_of_some env r ow g e1 k1 tx1 s b1 h1,
      step_accessGranted_of_some env r ow g e2 k2 tx2 _ b2 h2]
    refine filter_upsertBy_const (hp r g) (by simp) ?_
    exact keyUnique_upsertBy
      (f := fun _ => (⟨r, lower ow, lower g, e1 * 1000, k1, b1 * 1000⟩ : AccessGrant))
      (d := (⟨r, lower ow, lower g, e1 * 1000, k1, b1 * 1000⟩ : AccessGrant))
      (hp r g) (fun x hx => by rw [(hp r g x).mp hx]; rfl) rfl hu
  · intro env2 e s2 hu2
    cases e with
    | registrationRequested rid hn ra tx =>
      rw [step_registrationRequested]
      exact hu2
    | hospitalVerified hid admin tx =>
      cases hfind : s2.registrationRequests.find?
          (fun rr => rr.requestId == hid && rr.status == "verifying") with
      | none =>
        rw [step_hospitalVerified_of_none env2 hid admin tx s2 hfind]
        exact hu2
      | some req =>
        rw [step_hospitalVerified_of_some env2 hid admin tx s2 req hfind]
        exact hu2
    | hospitalRevoked hid tx =>
      rw [step_hospitalRevoked]
      exact hu2
    | roleAssigned ua role hid tx =>
      rw [step_roleAssigned]
      exact hu2
    | roleRevoked ua tx =>
      rw [step_roleRevoked]
      exact hu2
    | publicKeySaved ua tx =>
      cases hpk : env2.usersPublicKey ua with
      | none =>
        rw [step_publicKeySaved_of_none env2 ua tx s2 hpk]
        exact hu2
      | some pk =>
        by_cases hlen : 0 < pk.length
        · rw [step_publicKeySaved_of_pos env2 ua tx s2 pk hpk hlen]
          exact hu2
        · rw [step_publicKeySaved_of_empty env2 ua tx s2 pk hpk hlen]
          exact hu2
    | recordAdded rid ow2 ti ih cat iv vb ts tx =>
      rw [step_recordAdded]
      exact hu2
    | professionalAccessRequested rid rids prof pat tx =>
      rw [step_professionalAccessRequested]
      exact hu2
    | accessGranted rid ow2 gr2 exp dek tx =>
      cases hb : env2.getBlock tx with
      | none =>
        rw [step_accessGranted_of_none env2 rid ow2 gr2 exp dek tx s2 hb]
        exact hu2
      | some bt =>
        rw [step_accessGranted_of_some env2 rid ow2 gr2 exp dek tx s2 bt hb]
        exact keyUnique_upsertBy
          (f := fun _ => (⟨rid, lower ow2, lower gr2, exp * 1000, dek, bt * 1000⟩ : AccessGrant))
          (d := (⟨rid, lower ow2, lower gr2, exp * 1000, dek, bt * 1000⟩ : AccessGrant))
          (hp rid gr2) (fun x hx => by rw [(hp rid gr2 x).mp hx]; rfl) rfl hu2
    | accessRevoked pat prof rids tx =>
      rw [step_accessRevoked]
      exact List.Pairwise.sublist (List.filter_sublist _) hu2

/-- Witness for C3: two grants for record 1 and grantee G on the empty
store leave exactly the second grant's data. -/
theorem C3_access_grant_unique_witness :
    ((step envFix (.accessGranted 1 "P" "G" 20 "k2" "t2")
        (step envFix (.accessGranted 1 "P" "G" 10 "k1" "t1") emptyStore)).accessGrants.filter
          (fun gr => gr.recordId == 1 && gr.professionalAddress == lower "G"))
      = [⟨1, lower "P", lower "G", 20 * 1000, "k2", 50 * 1000⟩] :=
  (C3_access_grant_unique envFix 1 "P" "G" 10 20 "k1" "k2" "t1" "t2" 50 50 emptyStore
    rfl rfl List.Pairwise.nil).1

/-! ## Claim C4 -/

theorem lawful_beq_eq_decide {β : Type _} [BEq β] [LawfulBEq β] [DecidableEq β]
    (a b : β) : (a == b) = decide (a = b) := by
  by_cases h : a = b
  · simp [h]
  · simp [h]

/-- C4: after HospitalRevoked(h) every User with hospitalId h has
professionalStatus "revoked" and isVerified false; the cascade's
modifiedCount equals the number of Users that had hospitalId h and
differing field values beforehand; and a Hospital found for h in status
"revoking" is moved to "revoked" with isVerified false. -/
theorem C4_hospitalRevoked (env : Env) (hid : Nat) (tx : String) (s : Store) :
    (∀ u ∈ (step env (.hospitalRevoked hid tx) s).users,
        u.hospitalId = some hid →
          u.professionalStatus = "revoked" ∧ u.isVerified = false) ∧
    ((updateManyCount (fun u => u.hospitalId == some hid)
        (fun u => { u with professionalStatus := "revoked", isVerified := false })
        s.users).2
      = (s.users.filter (fun u => u.hospitalId == some hid
            && !(u.professionalStatus == "revoked" && u.isVerified == false))).length) ∧
    (∀ hosp, s.hospitals.find?
          (fun hh => hh.hospitalId == hid && hh.status == "revoking") = some hosp →
      { hosp with status := "revoked", isVerified := false }
        ∈ (step env (.hospitalRevoked hid tx) s).hospitals) := by
  refine ⟨?_, ?_, ?_⟩
  · rw [step_hospitalRevoked]
    intro u hu hhid
    simp only [updateManyCount, List.mem_map] at hu
    rcases hu with ⟨x, hx, hxu⟩
    by_cases hp : (x.hospitalId == some hid) = true
    · rw [if_pos hp] at hxu
      rw [← hxu]
      exact ⟨rfl, rfl⟩
    · rw [if_neg hp] at hxu
      rw [← hxu] at hhid
      exact absurd (beq_iff_eq.mpr hhid) hp
  · simp only [updateManyCount]
    congr 1
    refine List.filter_congr ?_
    intro x _
    cases x with
    | mk ad nm rl ps iv hi rq pk =>
      by_cases h1 : ps = "revoked" <;> by_cases h2 : iv = false <;>
        simp [h1, h2, User.mk.injEq, lawful_beq_eq_decide, eq_comm]
  · intro hosp hfind
    rw [step_hospitalRevoked]
    exact updateFirst_mem_of_find? hfind

/-- Witness for C4: on a store with one revoking hospital and one
professional at it, the hospital lands in "revoked" and the user is
revoked and unverified. -/
theorem C4_hospitalRevoked_witness :
    (⟨3, "H", "a", false, "revoked"⟩ : Hospital)
      ∈ (step envNone (.hospitalRevoked 3 "t")
          { emptyStore with
              hospitals := [⟨3, "H", "a", true, "revoking"⟩],
              users := [⟨"u1", "n", "Doctor", "approved", true, some 3, none, none⟩] }).hospitals ∧
    ((⟨"u1", "n", "Doctor", "revoked", false, some 3, none, none⟩ : User).professionalStatus
        = "revoked" ∧
      (⟨"u1", "n", "Doctor", "revoked", false, some 3, none, none⟩ : User).isVerified = false) :=
  ⟨(C4_hospitalRevoked envNone 3 "t"
      { emptyStore with
          hospitals := [⟨3, "H", "a", true, "revoking"⟩],
          users := [⟨"u1", "n", "Doctor", "approved", true, some 3, none, none⟩] }).2.2
      ⟨3, "H", "a", true, "revoking"⟩ (by decide),
   (C4_hospitalRevoked envNone 3 "t"
      { emptyStore with
          hospitals := [⟨3, "H", "a", true, "revoking"⟩],
          users := [⟨"u1", "n", "Doctor", "approved", true, some 3, none, none⟩] }).1
      ⟨"u1", "n", "Doctor", "revoked", false, some 3, none, none⟩ (by decide) rfl⟩

/-! ## Claim C5 -/

/-- C5: after AccessRevoked(p, prof, recordIds) no AccessGrant remains
whose professionalAddress is the lower-cased prof and whose recordId is
listed; every grant for a different professional or unlisted record
survives, and no grant appears that was not there before. -/
theorem C5_accessRevoked (env : Env) (pat prof : String) (rids : List Nat)
    (tx : String) (s : Store) :
    (∀ g ∈ (step env (.accessRevoked pat prof rids tx) s).accessGrants,
        ¬(g.professionalAddress = lower prof ∧ g.recordId ∈ rids)) ∧
    (∀ g ∈ s.accessGrants,
        ¬(g.professionalAddress = lower prof ∧ g.recordId ∈ rids) →
          g ∈ (step env (.accessRevoked pat prof rids tx) s).accessGrants) ∧
    (∀ g ∈ (step env (.accessRevoked pat prof rids tx) s).accessGrants,
        g ∈ s.accessGrants) := by
  rw [step_accessRevoked]
  refine ⟨?_, ?_, ?_⟩
  · intro g hg hcon
    rcases hcon with ⟨ha, hm⟩
    have hq := (List.mem_filter.mp hg).2
    simp [ha, hm] at hq
  · intro g hg hn
    refine List.mem_filter.mpr ⟨hg, ?_⟩
    by_cases ha : g.professionalAddress = lower prof
    · by_cases hm : g.recordId ∈ rids
      · exact absurd ⟨ha, hm⟩ hn
      · simp [ha, hm]
    · simp [ha]
  · intro g hg
    exact List.mem_of_mem_filter hg

/-- Witness for C5: revoking record 1 from professional G removes that
grant and keeps the grant of another professional. -/
theorem C5_accessRevoked_witness :
    ¬((⟨2, "p", "x", 5, "k", 9⟩ : AccessGrant).professionalAddress = lower "G"
        ∧ (⟨2, "p", "x", 5, "k", 9⟩ : AccessGrant).recordId ∈ [1]) ∧
    (⟨2, "p", "x", 5, "k", 9⟩ : AccessGrant)
      ∈ (step envNone (.accessRevoked "P" "G" [1] "t")
          { emptyStore with
              accessGrants := [⟨1, "p", "g", 5, "k", 9⟩, ⟨2, "p", "x", 5, "k", 9⟩] }).accessGrants ∧
    (∀ g ∈ (step envNone (.accessRevoked "P" "G" [1] "t")
        { emptyStore with
            accessGrants := [⟨1, "p", "g", 5, "k", 9⟩, ⟨2, "p", "x", 5, "k", 9⟩] }).accessGrants,
      g ∈ ({ emptyStore with
              accessGrants := [⟨1, "p", "g", 5, "k", 9⟩,
                ⟨2, "p", "x", 5, "k", 9⟩] } : Store).accessGrants) :=
  ⟨by decide,
   (C5_accessRevoked envNone "P" "G" [1] "t"
      { emptyStore with
          accessGrants := [⟨1, "p", "g", 5, "k", 9⟩, ⟨2, "p", "x", 5, "k", 9⟩] }).2.1
      ⟨2, "p", "x", 5, "k", 9⟩ (by decide) (by decide),
   (C5_accessRevoked envNone "P" "G" [1] "t"
      { emptyStore with
          accessGrants := [⟨1, "p", "g", 5, "k", 9⟩, ⟨2, "p", "x", 5, "k", 9⟩] }).2.2⟩

/-! ## Claim C9 -/

/-- C9: RoleAssigned, RoleRevoked and PublicKeySaved use non-upsert
updates: when no User matches the lower-cased address the store is left
completely unchanged, and in every store the number of User documents is
unchanged — none of the three handlers ever creates a User. -/
theorem C9_no_user_creation (env : Env) (ua : String) (role hid : Nat)
    (tx : String) (s : Store) :
    ((∀ u ∈ s.users, u.address ≠ lower ua) →
      step env (.roleAssigned ua role hid tx) s = s ∧
      step env (.roleRevoked ua tx) s = s ∧
      step env (.publicKeySaved ua tx) s = s) ∧
    (step env (.roleAssigned ua role hid tx) s).users.length = s.users.length ∧
    (step env (.roleRevoked ua tx) s).users.length = s.users.length ∧
    (step env (.publicKeySaved ua tx) s).users.length = s.users.length := by
  have hfind : (∀ u ∈ s.users, u.address ≠ lower ua) →
      s.users.find? (fun u => u.address == lower ua) = none := by
    intro hn
    rw [List.find?_eq_none]
    intro x hx hb
    exact hn x hx (beq_iff_eq.mp hb)
  refine ⟨?_, ?_, ?_, ?_⟩
  · intro hn
    have h0 := hfind hn
    refine ⟨?_, ?_, ?_⟩
    · rw [step_roleAssigned, updateFirst_of_find?_eq_none h0]
    · rw [step_roleRevoked, updateFirst_of_find?_eq_none h0]
    · cases hpk : env.usersPublicKey ua with
      | none => exact step_publicKeySaved_of_none env ua tx s hpk
      | some pk =>
        by_cases hlen : 0 < pk.length
        · rw [step_publicKeySaved_of_pos env ua tx s pk hpk hlen,
            updateFirst_of_find?_eq_none h0]
        · exact step_publicKeySaved_of_empty env ua tx s pk hpk hlen
  · rw [step_roleAssigned]
    exact length_updateFirst s.users
  · rw [step_roleRevoked]
    exact length_updateFirst s.users
  · cases hpk : env.usersPublicKey ua with
    | none => rw [step_publicKeySaved_of_none env ua tx s hpk]
    | some pk =>
      by_cases hlen : 0 < pk.length
      · rw [step_publicKeySaved_of_pos env ua tx s pk hpk hlen]
        exact length_updateFirst s.users
      · rw [step_publicKeySaved_of_empty env ua tx s pk hpk hlen]

/-- Witness for C9: with one user whose address differs from the event
address, all three handlers leave the store untouched. -/
theorem C9_no_user_creation_witness :
    step envFix (.roleAssigned "0xBB" 1 4 "t")
        { emptyStore with users := [⟨"0xaa", "n", "Patient", "none", false, none, none, none⟩] }
      = { emptyStore with
            users := [⟨"0xaa", "n", "Patient", "none", false, none, none, none⟩] } ∧
    step envFix (.publicKeySaved "0xBB" "t")
        { emptyStore with users := [⟨"0xaa", "n", "Patient", "none", false, none, none, none⟩] }
      = { emptyStore with
            users := [⟨"0xaa", "n", "Patient", "none", false, none, none, none⟩] } :=
  ⟨((C9_no_user_creation envFix "0xBB" 1 4 "t"
      { emptyStore with
          users := [⟨"0xaa", "n", "Patient", "none", false, none, none, none⟩] }).1
      (by decide)).1,
   ((C9_no_user_creation envFix "0xBB" 1 4 "t"
      { emptyStore with
          users := [⟨"0xaa", "n", "Patient", "none", false, none, none, none⟩] }).1
      (by decide)).2.2⟩

/-! ## Claim C10 -/

/-- C10: an AccessGranted event whose block lookup returns nothing
writes no grant — the store is returned unchanged with only a warning
log — and when the lookup succeeds, every grant in the resulting store
either pre-existed or carries createdAt equal to the block timestamp
converted to milliseconds. -/
theorem C10_accessGranted_block (env : Env) (rid : Nat) (ow gr : String)
    (exp : Nat) (dek tx : String) (s : Store) :
    (env.getBlock tx = none →
      handleEvent noFaults env (.accessGranted rid ow gr exp dek tx) s =
        (s, [LogEntry.mk .warn ("Could not fetch block for event at hash: " ++ tx) none])) ∧
    (∀ bt, env.getBlock tx = some bt →
      ∀ g ∈ (step env (.accessGranted rid ow gr exp dek tx) s).accessGrants,
        g ∈ s.accessGrants ∨ g.createdAt = bt * 1000) := by
  constructor
  · intro hb
    exact handleEvent_accessGranted_of_none env rid ow gr exp dek tx s hb
  · intro bt hb g hg
    rw [step_accessGranted_of_some env rid ow gr exp dek tx s bt hb] at hg
    rcases mem_upsertBy hg with h' | ⟨x, _, _, hgx⟩ | hgd
    · exact Or.inl h'
    · rw [hgx]
      exact Or.inr rfl
    · rw [hgd]
      exact Or.inr rfl

/-- Witness for C10: a failed block lookup drops the event with a
warning; a successful one stamps the new grant with the block time. -/
theorem C10_accessGranted_block_witness :
    handleEvent noFaults envNone (.accessGranted 1 "P" "G" 9 "k" "t") emptyStore
      = (emptyStore,
         [LogEntry.mk .warn ("Could not fetch block for event at hash: " ++ "t") none]) ∧
    ((⟨1, lower "P", lower "G", 9 * 1000, "k", 50 * 1000⟩ : AccessGrant)
        ∈ emptyStore.accessGrants
      ∨ (⟨1, lower "P", lower "G", 9 * 1000, "k", 50 * 1000⟩ : AccessGrant).createdAt
          = 50 * 1000) :=
  ⟨(C10_accessGranted_block envNone 1 "P" "G" 9 "k" "t" emptyStore).1 rfl,
   (C10_accessGranted_block envFix 1 "P" "G" 9 "k" "t" emptyStore).2 50 rfl
     ⟨1, lower "P", lower "G", 9 * 1000, "k", 50 * 1000⟩ (by decide)⟩

/-! ## Claim C8 -/

/-- C8: every handler invocation runs inside its own try/catch
boundary: if the body completes, the handler returns exactly the body's
result; if any store/chain operation inside the body rejects, the
handler still returns normally with the state reached so far, appending
an error log entry that carries the event's transaction hash — the
event is dropped and nothing propagates. -/
theorem C8_failure_boundary (faults : Faults) (env : Env) (e : Event) (s : Store) :
    (∀ out, bodyOf faults env e s = .ok out → handleEvent faults env e s = out) ∧
    (∀ m ps logs, bodyOf faults env e s = .error (m, ps, logs) →
      handleEvent faults env e s =
        (ps, logs ++ [LogEntry.mk .error
          ("Error processing " ++ eventName e ++ ": " ++ m) (some (eventTx e))]) ∧
      ∃ entry ∈ (handleEvent faults env e s).2,
        entry.level = .error ∧ entry.tx = some (eventTx e)) := by
  constructor
  · intro out hout
    simp only [handleEvent, hout, tryCatchE]
  · intro m ps logs herr
    have hh : handleEvent faults env e s =
        (ps, logs ++ [LogEntry.mk .error
          ("Error processing " ++ eventName e ++ ": " ++ m) (some (eventTx e))]) := by
      simp only [handleEvent, herr, tryCatchE]
    refine ⟨hh, ?_⟩
    rw [hh]
    exact ⟨LogEntry.mk .error
        ("Error processing " ++ eventName e ++ ": " ++ m) (some (eventTx e)),
      List.mem_append.mpr (Or.inr (List.mem_singleton.mpr rfl)), rfl, rfl⟩

/-- Witness for C8: with every operation rejecting, the
RegistrationRequested handler returns the untouched store plus an error
log tagged with the transaction hash. -/
theorem C8_failure_boundary_witness :
    handleEvent (fun _ => some "boom") envNone
        (.registrationRequested 7 "H" "0xA" "t") emptyStore
      = (emptyStore,
         [LogEntry.mk .info "Event RegistrationRequested" none,
          LogEntry.mk .error
            ("Error processing " ++ "RegistrationRequested" ++ ": " ++ "boom")
            (some "t")]) ∧
    ∃ entry ∈ (handleEvent (fun _ => some "boom") envNone
        (.registrationRequested 7 "H" "0xA" "t") emptyStore).2,
      entry.level = .error ∧ entry.tx = some "t" :=
  (C8_failure_boundary (fun _ => some "boom") envNone
    (.registrationRequested 7 "H" "0xA" "t") emptyStore).2 "boom" emptyStore
    [LogEntry.mk .info "Event RegistrationRequested" none] rfl

end Prism
